import Mathlib

/-!
Verification of the `reth dump-stage` core (`src/bin/reth/src/stage/dump/mod.rs`)
against its natural-language specification.

The on-disk stores are modelled as ordered key-value tables: a table is a list
of `(blockNumber, payload)` entries in strictly increasing key order (the
cursor order of the storage engine). Block numbers are u64, modelled as `Nat`
with explicit wrapping modulo `2 ^ 64` where the source performs u64
arithmetic (`from - 1`, `to + 1` in release semantics). Panics of the source
(`assert!`, `.expect("some")`) are modelled as error results.
-/

namespace RethDump

instance {ε α : Type} [DecidableEq ε] [DecidableEq α] : DecidableEq (Except ε α) := fun
  | .ok a, .ok b =>
    if h : a = b then .isTrue (by rw [h])
    else .isFalse (by intro hc; cases hc; exact h rfl)
  | .ok _, .error _ => .isFalse (by intro h; cases h)
  | .error _, .ok _ => .isFalse (by intro h; cases h)
  | .error a, .error b =>
    if h : a = b then .isTrue (by rw [h])
    else .isFalse (by intro hc; cases hc; exact h rfl)

/-- The size of the u64 value space. -/
def W64 : Nat := 2 ^ 64

/-- Wrapping u64 decrement: `x - 1` on a `u64` in release mode. -/
def wsub1 (x : Nat) : Nat := (x + (W64 - 1)) % W64

/-- Wrapping u64 increment: `x + 1` on a `u64` in release mode. -/
def wadd1 (x : Nat) : Nat := (x + 1) % W64

/-- One record of the `BlockBodyIndices` table: key is the block number, the
payload (transaction index ranges) is abstracted to a `Nat`. -/
abbrev BlockBodyEntry := Nat × Nat

/-- A table is its list of records in cursor (ascending key) order. -/
abbrev Table := List BlockBodyEntry

/-- Key order invariant of a store table: strictly increasing keys. -/
def tableSorted (t : Table) : Prop := t.Pairwise (fun a b => a.1 < b.1)

instance (t : Table) : Decidable (tableSorted t) := by
  unfold tableSorted
  infer_instance

/-- The two stores a dump invocation touches: the production source store and
the (initially absent) destination store created at the output path. -/
structure World where
  src : Table
  dest : Option Table
deriving DecidableEq, Repr

/-- Error kinds of the dump core. `invalidRange` models the
`assert!(from < to)` panic, `emptySource` models the `.expect("some")` panic
on an empty source table, `copyFailed` models a failed record copy inside the
destination write transaction. -/
inductive DumpError where
  | invalidRange
  | copyFailed
  | emptySource
deriving DecidableEq, Repr

/-- Observable store effects of one `setup` call, in program order. The API
offers `srcWrite` but `setup` never emits it. -/
inductive Effect where
  | createStore (path : String)
  | srcReadTx
  | destWrite (lo hi : Nat)
  | srcWrite
  | srcReadView
deriving DecidableEq, Repr

/-- Modelled from the spec: `import_table_with_range` of the storage engine
(`reth_db::table::TableImporter`, not under `src/`) copies every source record
whose key falls in the inclusive-exclusive range `[lo, hi)` into the
destination table, preserving key order and exact values (spec 4.1). -/
def importTableWithRange (src : Table) (lo hi : Nat) : Table :=
  src.filter (fun e => decide (lo ≤ e.1 ∧ e.1 < hi))

/-- Modelled from the spec: the fallible importer, `CopyFailed` when the
source cursor or a destination write fails on some record (spec 4.1); the
failure oracle `failAt` says which keys fail to copy. -/
def importTableWithRangeF (failAt : Nat → Bool) (src : Table) (lo hi : Nat) :
    Except DumpError Table :=
  if (importTableWithRange src lo hi).any (fun e => failAt e.1) then
    .error .copyFailed
  else
    .ok (importTableWithRange src lo hi)

/-- Modelled from the spec: `Database::update` runs the body in one write
transaction on the destination; on error the transaction aborts and the
destination keeps its prior contents, on success the new contents commit
(spec 4.1, atomicity). -/
def updateTx (dest : Table) (body : Table → Except DumpError Table) :
    Except DumpError Table × Table :=
  match body dest with
  | .ok d => (.ok d, d)
  | .error e => (.error e, dest)

/-- The single destination write transaction of `setup` (mod.rs lines
155-161): import `BlockBodyIndices` over the wrapped range into the
destination table. -/
def importTx (failAt : Nat → Bool) (src : Table) (lo hi : Nat) (dest : Table) :
    Except DumpError Table × Table :=
  updateTx dest (fun d => (importTableWithRangeF failAt src lo hi).map (fun rows => d ++ rows))

/-- Shallow embedding of `setup` (mod.rs lines 143-166). In program order:
`assert!(from < to)`; `init_db` creates a fresh empty store at `path`;
one destination write transaction imports `BlockBodyIndices` over
`[from - 1, to + 1)` (u64 wrapping arithmetic) from a source read
transaction; finally a source read view takes the last `BlockBodyIndices`
record of the SOURCE store and `.expect("some")` yields its key as the tip.
Returns the final world, the effect trace, and the result (tip on success). -/
def setup (fromBlock toBlock : Nat) (path : String) (w : World) :
    World × List Effect × Except DumpError Nat :=
  if fromBlock < toBlock then
    let lo := wsub1 fromBlock
    let hi := wadd1 toBlock
    let d := importTableWithRange w.src lo hi
    let tr := [Effect.createStore path, Effect.srcReadTx, Effect.destWrite lo hi,
               Effect.srcReadView]
    match w.src.getLast? with
    | some e => ({ w with dest := some d }, tr, .ok e.1)
    | none => ({ w with dest := some d }, tr, .error .emptySource)
  else
    (w, [], .error .invalidRange)

/-- The four stage identities of the router (mod.rs `Stages`, lines 71-81). -/
inductive StageId where
  | execution
  | storageHashing
  | accountHashing
  | merkle
deriving DecidableEq, Repr

/-- The per-stage command payload (mod.rs `StageCommand`, lines 84-100). -/
structure StageCommand where
  outputDb : String
  fromBlock : Nat
  toBlock : Nat
  dryRun : Bool
deriving DecidableEq, Repr

/-- The router input (mod.rs `Stages` enum): exactly four variants, each
carrying a `StageCommand`. -/
inductive Stages where
  | execution (cmd : StageCommand)
  | storageHashing (cmd : StageCommand)
  | accountHashing (cmd : StageCommand)
  | merkle (cmd : StageCommand)
deriving DecidableEq, Repr

/-- Embedding of the dispatch match in `Command::execute` (mod.rs lines
122-135): each arm calls that stage's dump routine with the same
`output_db`, `from`, `to`, `dry_run` it received; there is no default arm.
The result records which routine is invoked and with which arguments. -/
def routeStage : Stages → StageId × String × Nat × Nat × Bool
  | .execution c => (.execution, c.outputDb, c.fromBlock, c.toBlock, c.dryRun)
  | .storageHashing c => (.storageHashing, c.outputDb, c.fromBlock, c.toBlock, c.dryRun)
  | .accountHashing c => (.accountHashing, c.outputDb, c.fromBlock, c.toBlock, c.dryRun)
  | .merkle c => (.merkle, c.outputDb, c.fromBlock, c.toBlock, c.dryRun)

/-- The source table of the spec's concrete scenario: primary index records
for blocks 1..100 inclusive. -/
def src100 : Table := (List.range 100).map (fun i => (i + 1, 0))

/-- Shape of `setup` on a valid range: destination created and populated over
the wrapped range, the four effects in program order, result determined by the
last record of the source table. -/
theorem setup_eq_of_lt (fromBlock toBlock : Nat) (p : String) (w : World)
    (h : fromBlock < toBlock) :
    setup fromBlock toBlock p w =
      ({ w with dest := some (importTableWithRange w.src (wsub1 fromBlock) (wadd1 toBlock)) },
       [Effect.createStore p, Effect.srcReadTx,
        Effect.destWrite (wsub1 fromBlock) (wadd1 toBlock), Effect.srcReadView],
       match w.src.getLast? with
       | some e => Except.ok e.1
       | none => Except.error DumpError.emptySource) := by
  unfold setup
  rw [if_pos h]
  cases w.src.getLast? <;> rfl

/-- Shape of `setup` on an invalid range: the assert fires first, nothing else
happens. -/
theorem setup_eq_of_ge (fromBlock toBlock : Nat) (p : String) (w : World)
    (h : toBlock ≤ fromBlock) :
    setup fromBlock toBlock p w = (w, [], Except.error DumpError.invalidRange) := by
  unfold setup
  rw [if_neg (Nat.not_lt.mpr h)]

/-- Membership in an imported range. -/
theorem mem_importTableWithRange {src : Table} {lo hi : Nat} {e : BlockBodyEntry} :
    e ∈ importTableWithRange src lo hi ↔ e ∈ src ∧ lo ≤ e.1 ∧ e.1 < hi := by
  simp [importTableWithRange, List.mem_filter]

/-- Unwrapped form of the u64 decrement on the non-wrapping domain. -/
theorem wsub1_eq (x : Nat) (h1 : 1 ≤ x) (h2 : x < W64) : wsub1 x = x - 1 := by
  have h64 : W64 = 18446744073709551616 := by norm_num [W64]
  unfold wsub1
  rw [h64] at h2 ⊢
  omega

/-- Unwrapped form of the u64 increment on the non-wrapping domain. -/
theorem wadd1_eq (x : Nat) (h : x + 1 < W64) : wadd1 x = x + 1 := by
  unfold wadd1
  exact Nat.mod_eq_of_lt h

/-- In a key-sorted table, the last record has the maximum key. -/
theorem getLast_key_max : ∀ (t : Table), tableSorted t → ∀ (h : t ≠ []),
    ∀ e ∈ t, e.1 ≤ (t.getLast h).1 := by
  intro t
  induction t with
  | nil => intro _ h; exact absurd rfl h
  | cons a rest ih =>
    intro hs h e he
    cases rest with
    | nil =>
      have : e = a := by simpa using he
      subst this
      exact Nat.le_refl _
    | cons b t2 =>
      have hne : b :: t2 ≠ [] := List.cons_ne_nil _ _
      have hgl : (a :: b :: t2).getLast h = (b :: t2).getLast hne :=
        List.getLast_cons hne
      rcases List.mem_cons.mp he with rfl | hm
      · have hlt := (List.pairwise_cons.mp hs).1
        have hmem : (b :: t2).getLast hne ∈ b :: t2 := List.getLast_mem hne
        rw [hgl]
        exact Nat.le_of_lt (hlt _ hmem)
      · have := ih (List.pairwise_cons.mp hs).2 hne e hm
        rw [hgl]
        exact this

/-- C1 counterexample: in the spec's concrete scenario (source holds blocks
1..100, from = 10, to = 20) `setup` returns tip = 100, not 21, because the
tip is read from the SOURCE store's last `BlockBodyIndices` record (mod.rs
lines 163-164), and 100 is not a key of the destination table, so the tip is
neither a destination key nor its maximum. -/
theorem C1_tip_cex :
    (setup 10 20 "p" ⟨src100, none⟩).2.2 = Except.ok 100 ∧
    (setup 10 20 "p" ⟨src100, none⟩).2.2 ≠ Except.ok 21 ∧
    (((setup 10 20 "p" ⟨src100, none⟩).1).dest.getD []).all
      (fun e => decide (e.1 ≠ 100)) = true := by
  decide

/-- C1 amended: the tip returned by `setup` is a key present in the SOURCE
store's primary index table and is the maximum such key, independent of the
destination contents; in the concrete scenario it is 100, not 21. -/
theorem C1_tip_is_source_max (src : Table) (hs : tableSorted src) (hne : src ≠ [])
    (fromBlock toBlock : Nat) (p : String) (d : Option Table)
    (h : fromBlock < toBlock) :
    (setup fromBlock toBlock p ⟨src, d⟩).2.2 = Except.ok ((src.getLast hne).1) ∧
    src.getLast hne ∈ src ∧
    ∀ e ∈ src, e.1 ≤ (src.getLast hne).1 := by
  refine ⟨?_, List.getLast_mem hne, getLast_key_max src hs hne⟩
  rw [setup_eq_of_lt _ _ _ _ h]
  simp only
  rw [List.getLast?_eq_getLast _ hne]

/-- C1 witness: the amended claim evaluated on the spec's concrete scenario. -/
theorem C1_tip_is_source_max_witness :
    (setup 10 20 "p" ⟨src100, none⟩).2.2 = Except.ok 100 ∧
    (100, 0) ∈ src100 ∧
    (1 : Nat) ≤ 100 := by
  have h := C1_tip_is_source_max src100 (by decide) (by decide) 10 20 "p" none (by decide)
  exact ⟨h.1, h.2.1, h.2.2 (1, 0) (by decide)⟩

/-- C2 counterexample: for from = 0, to = 5 on a source holding the single
record with key 0, the claimed copy interval `[from-1, to+1)` contains key 0,
yet the destination comes out empty, because `from - 1` wraps to `2^64 - 1`
in u64 arithmetic and the import range `[2^64 - 1, 6)` is empty. -/
theorem C2_range_cex :
    (0, 7) ∈ (World.mk [(0, 7)] none).src ∧
    (0 : Nat) < 5 + 1 ∧
    ((setup 0 5 "p" (World.mk [(0, 7)] none)).1).dest = some [] := by
  decide

/-- C2 amended: for every `1 ≤ from < to` with `to + 1 < 2^64` (so neither
bound wraps), after `setup` the destination primary index table exists and
contains exactly the source records whose keys lie in `[from - 1, to + 1)`,
never more and never less. -/
theorem C2_copied_range_exact (fromBlock toBlock : Nat) (p : String) (src : Table)
    (d : Option Table) (h1 : 1 ≤ fromBlock) (h2 : fromBlock < toBlock)
    (h3 : toBlock + 1 < W64) :
    (((setup fromBlock toBlock p ⟨src, d⟩).1).dest).isSome = true ∧
    ∀ e, e ∈ ((((setup fromBlock toBlock p ⟨src, d⟩).1).dest).getD []) ↔
      (e ∈ src ∧ fromBlock - 1 ≤ e.1 ∧ e.1 < toBlock + 1) := by
  have hfw : fromBlock < W64 := by omega
  rw [setup_eq_of_lt _ _ _ _ h2]
  refine ⟨rfl, ?_⟩
  intro e
  simp only [Option.getD_some]
  rw [wsub1_eq fromBlock h1 hfw, wadd1_eq toBlock h3] at *
  exact mem_importTableWithRange

/-- C2 witness: the amended claim evaluated on the concrete scenario,
instantiated at the boundary record with key 9 = from - 1. -/
theorem C2_copied_range_exact_witness :
    (((setup 10 20 "p" ⟨src100, none⟩).1).dest).isSome = true ∧
    ((9, 0) ∈ ((((setup 10 20 "p" ⟨src100, none⟩).1).dest).getD []) ↔
      ((9, 0) ∈ src100 ∧ 10 - 1 ≤ 9 ∧ 9 < 20 + 1)) := by
  have h := C2_copied_range_exact 10 20 "p" src100 none (by decide) (by decide)
    (by norm_num [W64])
  exact ⟨h.1, h.2 (9, 0)⟩

/-- C3: for every `from ≥ to`, `setup` fails with the invalid-range
precondition failure (the `assert!(from < to)` panic) before any destination
store is created: the world is unchanged (no destination) and the effect
trace is empty, so no store-creation or other filesystem side effect
happened. -/
theorem C3_invalid_range (fromBlock toBlock : Nat) (p : String) (w : World)
    (h : toBlock ≤ fromBlock) :
    setup fromBlock toBlock p w = (w, [], Except.error DumpError.invalidRange) :=
  setup_eq_of_ge fromBlock toBlock p w h

/-- C3 witness: the spec's concrete scenario from = 50, to = 40. -/
theorem C3_invalid_range_witness :
    setup 50 40 "p" ⟨src100, none⟩ = (⟨src100, none⟩, [], Except.error DumpError.invalidRange) :=
  C3_invalid_range 50 40 "p" ⟨src100, none⟩ (by decide)

/-- C4 counterexample: source holds only the record with key 5; from = 10,
to = 20 yields an empty slice (destination table is empty), yet `setup`
succeeds with tip 5 instead of failing with an `EmptySlice` error, because
the `.expect("some")` reads the last record of the SOURCE table, which
exists. -/
theorem C4_empty_slice_cex :
    ((setup 10 20 "p" ⟨[(5, 0)], none⟩).1).dest = some [] ∧
    (setup 10 20 "p" ⟨[(5, 0)], none⟩).2.2 = Except.ok 5 := by
  decide

/-- C4 amended: for every valid range `from < to`, `setup` fails with the
empty-source panic (the `.expect("some")`, modelled as `emptySource`) exactly
when the SOURCE primary index table is empty; an empty slice cut from a
non-empty source does not fail. -/
theorem C4_fails_iff_source_empty (fromBlock toBlock : Nat) (p : String) (w : World)
    (h : fromBlock < toBlock) :
    ((setup fromBlock toBlock p w).2.2 = Except.error DumpError.emptySource ↔ w.src = []) := by
  rw [setup_eq_of_lt _ _ _ _ h]
  cases hsrc : w.src with
  | nil => simp
  | cons a t =>
    have hne : a :: t ≠ [] := List.cons_ne_nil _ _
    rw [List.getLast?_eq_getLast _ hne]
    simp

/-- C4 witness: the amended claim evaluated at an empty source. -/
theorem C4_fails_iff_source_empty_witness :
    ((setup 1 2 "p" ⟨[], none⟩).2.2 = Except.error DumpError.emptySource ↔
      (World.mk [] none).src = []) :=
  C4_fails_iff_source_empty 1 2 "p" ⟨[], none⟩ (by decide)

/-- C5: for every dump invocation, `setup` never writes to the source store:
the source table of the resulting world is identical to the one before, and
the effect trace contains no source-write effect (every source access in the
trace is a read transaction or read view). -/
theorem C5_source_never_written :
    ∀ (fromBlock toBlock : Nat) (p : String) (w : World),
      ((setup fromBlock toBlock p w).1).src = w.src ∧
      Effect.srcWrite ∉ (setup fromBlock toBlock p w).2.1 := by
  intro fromBlock toBlock p w
  by_cases h : fromBlock < toBlock
  · rw [setup_eq_of_lt _ _ _ _ h]
    refine ⟨rfl, ?_⟩
    simp
  · rw [setup_eq_of_ge _ _ _ _ (Nat.not_lt.mp h)]
    refine ⟨rfl, ?_⟩
    simp

/-- C6: the stage dump router accepts exactly the four stage identities as a
closed set — every router input is one of the four variants, with no default
or fallthrough case — and for each identity it delegates to that stage's dump
routine, passing the same output path, from, to, and dry-run flag it
received. -/
theorem C6_router_closed_dispatch :
    ∀ s : Stages, ∃ c : StageCommand,
      (s = Stages.execution c ∧
        routeStage s = (StageId.execution, c.outputDb, c.fromBlock, c.toBlock, c.dryRun)) ∨
      (s = Stages.storageHashing c ∧
        routeStage s = (StageId.storageHashing, c.outputDb, c.fromBlock, c.toBlock, c.dryRun)) ∨
      (s = Stages.accountHashing c ∧
        routeStage s = (StageId.accountHashing, c.outputDb, c.fromBlock, c.toBlock, c.dryRun)) ∨
      (s = Stages.merkle c ∧
        routeStage s = (StageId.merkle, c.outputDb, c.fromBlock, c.toBlock, c.dryRun)) := by
  intro s
  cases s with
  | execution c => exact ⟨c, Or.inl ⟨rfl, rfl⟩⟩
  | storageHashing c => exact ⟨c, Or.inr (Or.inl ⟨rfl, rfl⟩)⟩
  | accountHashing c => exact ⟨c, Or.inr (Or.inr (Or.inl ⟨rfl, rfl⟩))⟩
  | merkle c => exact ⟨c, Or.inr (Or.inr (Or.inr ⟨rfl, rfl⟩))⟩

/-- C7: the range copy is atomic with respect to the single destination write
transaction: for every source, range and failure oracle, either the
transaction succeeds and the destination holds its prior contents plus every
source record of the range, or it fails with `CopyFailed` and the destination
is exactly its prior contents — never a partial copy. -/
theorem C7_copy_atomic :
    ∀ (failAt : Nat → Bool) (src : Table) (lo hi : Nat) (dest : Table),
      ((importTx failAt src lo hi dest).1 =
          Except.ok (dest ++ importTableWithRange src lo hi) ∧
        (importTx failAt src lo hi dest).2 = dest ++ importTableWithRange src lo hi) ∨
      ((importTx failAt src lo hi dest).1 = Except.error DumpError.copyFailed ∧
        (importTx failAt src lo hi dest).2 = dest) := by
  intro failAt src lo hi dest
  by_cases h : (importTableWithRange src lo hi).any (fun e => failAt e.1) = true
  · right
    simp [importTx, updateTx, importTableWithRangeF, h, Except.map]
  · left
    simp [importTx, updateTx, importTableWithRangeF, h, Except.map]

/-- C8: running `setup` twice with the same source store, same from and same
to but two different destination paths yields two destination stores with
identical primary index contents and the same result (in particular the same
tip): the destination path influences neither. -/
theorem C8_copy_determinism :
    ∀ (fromBlock toBlock : Nat) (p1 p2 : String) (src : Table),
      ((setup fromBlock toBlock p1 ⟨src, none⟩).1).dest =
        ((setup fromBlock toBlock p2 ⟨src, none⟩).1).dest ∧
      (setup fromBlock toBlock p1 ⟨src, none⟩).2.2 =
        (setup fromBlock toBlock p2 ⟨src, none⟩).2.2 := by
  intro fromBlock toBlock p1 p2 src
  by_cases h : fromBlock < toBlock
  · rw [setup_eq_of_lt _ _ p1 _ h, setup_eq_of_lt _ _ p2 _ h]
    exact ⟨rfl, rfl⟩
  · rw [setup_eq_of_ge _ _ p1 _ (Nat.not_lt.mp h), setup_eq_of_ge _ _ p2 _ (Nat.not_lt.mp h)]
    exact ⟨rfl, rfl⟩

/-- C9: `setup` computes the copy bounds in wrapping u64 arithmetic: the
lower bound `from - 1` wraps to `2^64 - 1` at from = 0 and the upper bound
`to + 1` wraps to 0 at to = 2^64 - 1, while on `1 ≤ from < 2^64` the lower
bound is the ordinary `from - 1`; the destination write of `setup` uses
exactly these wrapped bounds. -/
theorem C9_u64_wrapping :
    wsub1 0 = W64 - 1 ∧
    wadd1 (W64 - 1) = 0 ∧
    (∀ x, 1 ≤ x → x < W64 → wsub1 x = x - 1) ∧
    (∀ (fromBlock toBlock : Nat) (p : String) (w : World), fromBlock < toBlock →
      Effect.destWrite (wsub1 fromBlock) (wadd1 toBlock) ∈
        (setup fromBlock toBlock p w).2.1) := by
  refine ⟨?_, ?_, wsub1_eq, ?_⟩
  · norm_num [wsub1, W64]
  · norm_num [wadd1, W64]
  · intro fromBlock toBlock p w h
    rw [setup_eq_of_lt _ _ _ _ h]
    simp

/-- C9 witness: the wrap at from = 0 and to = 2^64 - 1, the non-wrapping case
at from = 10, and the bounds used by a concrete `setup` call. -/
theorem C9_u64_wrapping_witness :
    wsub1 0 = W64 - 1 ∧
    wadd1 (W64 - 1) = 0 ∧
    wsub1 10 = 9 ∧
    Effect.destWrite (wsub1 10) (wadd1 20) ∈ (setup 10 20 "p" ⟨src100, none⟩).2.1 := by
  have h := C9_u64_wrapping
  exact ⟨h.1, h.2.1, h.2.2.1 10 (by decide) (by norm_num [W64]),
    h.2.2.2 10 20 "p" ⟨src100, none⟩ (by decide)⟩

/-- C10: the tip returned by `setup` is read from the SOURCE store: for every
valid range and non-empty sorted source primary index table, the result is
the maximum key of the source's `BlockBodyIndices` table, and it is the same
for any other valid range, destination path and prior destination — i.e.
independent of from, to, and of what was copied. -/
theorem C10_tip_reads_source (src : Table) (hs : tableSorted src) (hne : src ≠ [])
    (f1 t1 f2 t2 : Nat) (p1 p2 : String) (d1 d2 : Option Table)
    (h1 : f1 < t1) (h2 : f2 < t2) :
    (setup f1 t1 p1 ⟨src, d1⟩).2.2 = Except.ok ((src.getLast hne).1) ∧
    (setup f1 t1 p1 ⟨src, d1⟩).2.2 = (setup f2 t2 p2 ⟨src, d2⟩).2.2 ∧
    ∀ e ∈ src, e.1 ≤ (src.getLast hne).1 := by
  have e1 : (setup f1 t1 p1 ⟨src, d1⟩).2.2 = Except.ok ((src.getLast hne).1) := by
    rw [setup_eq_of_lt _ _ _ _ h1]
    simp only
    rw [List.getLast?_eq_getLast _ hne]
  have e2 : (setup f2 t2 p2 ⟨src, d2⟩).2.2 = Except.ok ((src.getLast hne).1) := by
    rw [setup_eq_of_lt _ _ _ _ h2]
    simp only
    rw [List.getLast?_eq_getLast _ hne]
  exact ⟨e1, by rw [e1, e2], getLast_key_max src hs hne⟩

/-- C10 witness: a source with records at keys 1 and 5; two different ranges
and paths both return tip 5, the source maximum. -/
theorem C10_tip_reads_source_witness :
    (setup 2 3 "a" ⟨[(1, 0), (5, 2)], none⟩).2.2 = Except.ok 5 ∧
    (setup 2 3 "a" ⟨[(1, 0), (5, 2)], none⟩).2.2 =
      (setup 1 4 "b" ⟨[(1, 0), (5, 2)], some []⟩).2.2 ∧
    (1 : Nat) ≤ 5 := by
  have h := C10_tip_reads_source [(1, 0), (5, 2)] (by decide) (by decide)
    2 3 1 4 "a" "b" none (some []) (by decide) (by decide)
  exact ⟨h.1, h.2.1, h.2.2 (1, 0) (by decide)⟩

end RethDump
